import Mathlib

/-!
Verification development for the FindStock repository (src/main.py).

The Python source is shallowly embedded: floats are modelled as exact
rationals (`ℚ`), Python `None` as `Option.none`, dictionaries as
association lists with `List.lookup` semantics, network calls and
exceptions as explicit `Except Unit` values supplied as parameters, and
the three-valued behaviour of `dict.get(key, default)` (key absent /
key present with value `None` / key present with a value) as the
`PyVal` type.  Display-only f-string fields of the screening record
(`52周范围`, `PE/ROE`, `负债/毛利`) are omitted; every field inspected by a
theorem is modelled.
-/

namespace FindStock

/-- A quote record as built by `get_ticker_data` in src/main.py:
the dict with keys `current_price`, `year_low`, `year_high`
(each possibly `None`). -/
structure MData where
  current_price : Option ℚ
  year_low : Option ℚ
  year_high : Option ℚ
deriving DecidableEq

/-- The all-`None` record returned when every provider fails. -/
def noneRecord : MData := ⟨none, none, none⟩

/-- Python truthiness test (`if not x`) for an optional float:
falsy iff `None` or `0`. -/
def falsyQ : Option ℚ → Bool
  | none => true
  | some q => q = 0

/-- Python truthiness test for an optional string (API keys):
falsy iff `None` or the empty string. -/
def falsyStr : Option String → Bool
  | none => true
  | some s => s = ""

/-- The static fallback table `fallback_market_data` of src/main.py. -/
def fallback_market_data : List (String × MData) :=
  [ ("AAPL", ⟨some 170, some 135, some 198⟩),
    ("AXP",  ⟨some 175, some 140, some 195⟩),
    ("BAC",  ⟨some 32,  some 24,  some 37⟩),
    ("KO",   ⟨some 63,  some 54,  some 65⟩),
    ("COKE", ⟨some 63,  some 54,  some 65⟩),
    ("OXY",  ⟨some 62,  some 50,  some 73⟩),
    ("MCO",  ⟨some 800, some 680, some 850⟩),
    ("KHC",  ⟨some 45,  some 38,  some 52⟩),
    ("CB",   ⟨some 120, some 95,  some 135⟩),
    ("GOOGL", ⟨some 135, some 120, some 160⟩),
    ("DVA",  ⟨some 120, some 95,  some 135⟩),
    ("SIRI", ⟨some 3,   some (mkRat 5 2), some 4⟩),
    ("V",    ⟨some 260, some 220, some 280⟩) ]

/-- `fallback_market_data.get(ticker, {})` -/
def fbLookup (t : String) : Option MData := List.lookup t fallback_market_data

/-- `fallback_data.get(field)` where `fallback_data` may be the empty dict. -/
def fbField (fb : Option MData) (f : MData → Option ℚ) : Option ℚ :=
  match fb with
  | none => none
  | some m => f m

/-- Fields the primary (yfinance) provider may return:
`info.get("currentPrice")`, `info.get("fiftyTwoWeekLow")`,
`info.get("fiftyTwoWeekHigh")`. -/
structure PrimInfo where
  currentPrice : Option ℚ
  fiftyTwoWeekLow : Option ℚ
  fiftyTwoWeekHigh : Option ℚ
deriving DecidableEq

/-- Finnhub `/quote` JSON: field `c`. -/
structure FQuote where
  c : Option ℚ
deriving DecidableEq

/-- Finnhub `/stock/metric` JSON: `metric.52WeekLow`, `metric.52WeekHigh`. -/
structure FMetric where
  week52Low : Option ℚ
  week52High : Option ℚ
deriving DecidableEq

/-- Alpha Vantage `Global Quote`, already parsed to numbers; `none`
covers an absent or empty-string field. -/
structure AVQuote where
  price : Option ℚ
  weekLow : Option ℚ
  weekHigh : Option ℚ
deriving DecidableEq

/-- The external world of one `get_ticker_data` call: outcome of the
primary yfinance fetch (`error` = the try-block raised), the two
configured API keys, and the outcomes of the backup HTTP requests
(`error` = request exception / bad status / parse failure). -/
structure Providers where
  primary : Except Unit PrimInfo
  finnhub_key : Option String
  finnhub_quote : Except Unit FQuote
  finnhub_metric : Except Unit FMetric
  alpha_key : Option String
  alpha_resp : Except Unit AVQuote

/-- The Finnhub backup step of `get_ticker_data` (the inner `try` of the
first `except`): fails (advancing to Alpha Vantage) on a missing key, a
request exception on either call, or a non-truthy current price. -/
def finnhubStep (p : Providers) : Except Unit MData :=
  if falsyStr p.finnhub_key then .error () else
  match p.finnhub_quote with
  | .error _ => .error ()
  | .ok q =>
    match p.finnhub_metric with
    | .error _ => .error ()
    | .ok m =>
      if falsyQ q.c then .error ()
      else .ok ⟨q.c, m.week52Low, m.week52High⟩

/-- The Alpha Vantage backup step (the innermost `try`): on any failure
the terminal all-`None` record is returned. -/
def alphaStep (p : Providers) : MData :=
  if falsyStr p.alpha_key then noneRecord else
  match p.alpha_resp with
  | .error _ => noneRecord
  | .ok av =>
    match av.price with
    | none => noneRecord
    | some _ => ⟨av.price, av.weekLow, av.weekHigh⟩

/-- `get_ticker_data` of src/main.py.  Besides the resulting record, the
returned booleans report whether the Finnhub branch and the Alpha
Vantage branch were entered.  When the primary fetch succeeds, each
falsy field is filled from the static fallback table and the backup
branches are never entered. -/
def get_ticker_data (ticker : String) (p : Providers) : MData × Bool × Bool :=
  match p.primary with
  | .ok info =>
      let cp := info.currentPrice
      let yl := info.fiftyTwoWeekLow
      let yh := info.fiftyTwoWeekHigh
      let d : MData :=
        if falsyQ cp || falsyQ yl || falsyQ yh then
          let fb := fbLookup ticker
          { current_price := if falsyQ cp then fbField fb MData.current_price else cp,
            year_low := if falsyQ yl then fbField fb MData.year_low else yl,
            year_high := if falsyQ yh then fbField fb MData.year_high else yh }
        else ⟨cp, yl, yh⟩
      (d, false, false)
  | .error _ =>
      match finnhubStep p with
      | .ok d => (d, true, false)
      | .error _ => (alphaStep p, true, true)

/-- `Except` outcome test used in the chain-advance theorems. -/
def exceptFailed {α : Type} : Except Unit α → Bool
  | .error _ => true
  | .ok _ => false

/-- Ticker normalization used throughout src/main.py:
`t.replace('.', '-')` (a single-character replace, hence a map over
the characters). -/
def normalizeT (s : String) : String :=
  (s.data.map (fun c => if c = '.' then '-' else c)).asString

/-! ## Generic cache store (`save_generic_cache` / `load_generic_cache`) -/

/-- The persisted cache record `{data, timestamp, ttl}`. -/
structure GenCacheEntry (α : Type) where
  data : α
  timestamp : ℚ
  ttl : ℚ
deriving DecidableEq

/-- `save_generic_cache(key, data, ttl)` called at time `now`. -/
def save_generic_cache {α : Type} (data : α) (ttl now : ℚ) : GenCacheEntry α :=
  ⟨data, now, ttl⟩

/-- `load_generic_cache(key)` at time `now`; `stored = none` models a
missing, unreadable or corrupt cache file (all treated as a miss). -/
def load_generic_cache {α : Type} (now : ℚ) (stored : Option (GenCacheEntry α)) : Option α :=
  match stored with
  | none => none
  | some e => if now - e.timestamp < e.ttl then some e.data else none

/-! ## Batch resolution (`get_market_data`) -/

/-- The cached market-data map: ticker → record (a `none` value models
a falsy/null entry, which the validity test rejects). -/
abbrev MarketMap := List (String × Option MData)

/-- The validity filter of `get_market_data`: keep a cached entry iff
`data and data.get('current_price') and data.get('current_price') != 100.0`. -/
def keepValid (e : String × Option MData) : Option (String × MData) :=
  match e.2 with
  | none => none
  | some d =>
    if falsyQ d.current_price || d.current_price = some 100 then none
    else some (e.1, d)

/-- The "already satisfied" map `new_market_data` built from the loaded
cache before any fetching. -/
def cachedValidEntries (m : Option MarketMap) : List (String × MData) :=
  match m with
  | none => []
  | some es => es.filterMap keepValid

/-- `t not in new_market_data or not ...get('current_price') or ... == 100.0` -/
def needsFetch (base : List (String × MData)) (t : String) : Bool :=
  match List.lookup t base with
  | none => true
  | some d => falsyQ d.current_price || d.current_price = some 100

/-- The `missing_tickers` list of `get_market_data`. -/
def missingTickers (tickers : List String) (base : List (String × MData)) : List String :=
  tickers.filter (needsFetch base)

/-- The value a worker stores for a ticker: the fetched record, or the
all-`None` record if the worker raised unexpectedly. -/
def fetchVal (fetch : String → Except Unit MData) (t : String) : MData :=
  match fetch t with
  | .ok d => d
  | .error _ => noneRecord

/-- `get_market_data(tickers)` of src/main.py, with the cache file state
(`store`), the current time and the per-ticker fetch outcome passed
explicitly.  Workers write disjoint keys, so the completion order of the
thread pool does not affect the resulting map; it is modelled by a fold. -/
def get_market_data (now : ℚ) (store : Option (GenCacheEntry MarketMap))
    (fetch : String → Except Unit MData) (tickers : List String) :
    List (String × MData) :=
  if tickers.isEmpty then [] else
  let tickers' := tickers.map normalizeT
  let base := cachedValidEntries (load_generic_cache now store)
  (missingTickers tickers' base).foldl (fun acc t => (t, fetchVal fetch t) :: acc) base

/-! ## Result cache (`load_cache` and the schema re-check in `main`) -/

/-- The persisted CSV table, abstracted to its column set. -/
structure CachedTable where
  columns : List String
deriving DecidableEq

/-- The `required_columns` list inside `load_cache`. -/
def load_cache_required_columns : List String :=
  ["中文名称", "中文行业", "52周最高", "52周最低", "当前价格"]

/-- `load_cache()` of src/main.py: `stored = none` models a missing
file pair or a read/parse exception; on success Python returns
`(df, meta.get("last_updated", "未知时间"))`. -/
def load_cache (stored : Option (CachedTable × Option String)) :
    Option (CachedTable × String) :=
  match stored with
  | none => none
  | some (df, meta_lu) =>
    if load_cache_required_columns.all (fun c => df.columns.contains c) then
      some (df, meta_lu.getD "未知时间")
    else none

/-- The `required_cols` list checked in `main` after `load_cache`. -/
def main_required_cols : List String :=
  ["PEG", "净利率(%)", "自由现金流(亿)", "估值状态", "52周范围", "PE/ROE",
   "负债/毛利", "公司/行业", "当前价格"]

/-- The composed load performed by `main`: `load_cache` followed by the
schema re-check that sets the cache to `None` when a required column is
absent. -/
def main_load_cached (stored : Option (CachedTable × Option String)) :
    Option (CachedTable × String) :=
  match load_cache stored with
  | none => none
  | some (df, lu) =>
    if main_required_cols.all (fun c => df.columns.contains c) then some (df, lu)
    else none

/-! ## Screening engine (`process_ticker` inside `analyze_stocks`) -/

/-- The three states of a key in a loosely-typed Python dict:
absent, present with value `None`, or present with a value.
`info.get(k, d)` distinguishes `absent` (gives `d`) from `null`
(gives `None`). -/
inductive PyVal (α : Type) where
  | absent
  | null
  | val (a : α)
deriving DecidableEq

/-- `info.get(k, d)`: `some` iff the result is not Python `None`. -/
def pyGetD {α : Type} (v : PyVal α) (d : α) : Option α :=
  match v with
  | .absent => some d
  | .null => none
  | .val a => some a

/-- `info.get(k)` (no default). -/
def pyGet {α : Type} (v : PyVal α) : Option α :=
  match v with
  | .absent => none
  | .null => none
  | .val a => some a

/-- The yfinance `info` dict, restricted to the keys `process_ticker`
reads.  `isEmpty` models the `if not info` check. -/
structure Info where
  isEmpty : Bool
  returnOnEquity : PyVal ℚ
  debtToEquity : PyVal ℚ
  grossMargins : PyVal ℚ
  trailingPE : PyVal ℚ
  freeCashflow : PyVal ℚ
  operatingCashflow : PyVal ℚ
  capitalExpenditures : PyVal ℚ
  profitMargins : PyVal ℚ
  revenueGrowth : PyVal ℚ
  sector : PyVal String
  pegRatio : PyVal ℚ
  earningsGrowth : PyVal ℚ
  currentPrice : PyVal ℚ
  fiftyTwoWeekHigh : PyVal ℚ
  fiftyTwoWeekLow : PyVal ℚ
  shortName : PyVal String
  industry : PyVal String
  marketCap : PyVal ℚ
  enterpriseValue : PyVal ℚ
  forwardPE : PyVal ℚ
  priceToBook : PyVal ℚ
  dividendYield : PyVal ℚ
deriving DecidableEq

/-- `CYCLICAL_SECTORS` of `analyze_stocks`. -/
def CYCLICAL_SECTORS : List String :=
  ["Energy", "Materials", "Industrials", "Consumer Discretionary", "Financials",
   "Real Estate", "Basic Materials", "Financial Services", "Consumer Cyclical"]

/-- The free-cash-flow computation of gate 5: provider value, else
`operatingCashflow + capitalExpenditures`, else the permissive default `0`. -/
def fcfOf (info : Info) : ℚ :=
  match pyGet info.freeCashflow with
  | some f => f
  | none =>
    match pyGet info.operatingCashflow, pyGet info.capitalExpenditures with
    | some ocf, some capex => ocf + capex
    | _, _ => 0

/-- The PEG computation: provider `pegRatio` if present, else
`trailingPE / (earningsGrowth * 100)` when `earningsGrowth > 0`,
else undefined. -/
def pegOf (info : Info) : Option ℚ :=
  match pyGet info.pegRatio with
  | some p => some p
  | none =>
    match pyGet info.trailingPE, pyGet info.earningsGrowth with
    | some pv, some gv => if 0 < gv then some (pv / (gv * 100)) else none
    | _, _ => none

/-- Python short-circuit `a and b` where the right operand may raise. -/
def pyAnd (a : Bool) (b : Except Unit Bool) : Except Unit Bool :=
  if a then b else .ok false

/-- `rev_growth > 0` where `rev_growth` may be `None`: comparing `None`
with a number raises `TypeError`. -/
def cmpGT0 (rev : Option ℚ) : Except Unit Bool :=
  match rev with
  | none => .error ()
  | some r => .ok (decide (0 < r))

/-- The `valuation_status` computation of `process_ticker`, including the
possible `TypeError` from comparing a `None` revenue growth. -/
def valuationStatus (rev peg : Option ℚ) : Except Unit String :=
  if (match rev with | some r => decide (r < 0) | none => false) then .ok "📉 衰退"
  else
    match peg with
    | none => .ok "未知"
    | some p =>
      match pyAnd (decide (p < 1)) (cmpGT0 rev) with
      | .error e => .error e
      | .ok true => .ok "💰 低估"
      | .ok false =>
        match pyAnd (decide (1 ≤ p ∧ p ≤ 2)) (cmpGT0 rev) with
        | .error e => .error e
        | .ok true => .ok "⚖️ 合理"
        | .ok false =>
          match pyAnd (decide (2 < p)) (cmpGT0 rev) with
          | .error e => .error e
          | .ok true => .ok "🏔️ 高估"
          | .ok false => .ok "未知"

/-- Floor of a rational, computably. -/
def ratFloor (q : ℚ) : ℤ := Int.fdiv q.num q.den

/-- Python `round(q)` (round-half-even) on an exact rational. -/
def pyRound0 (q : ℚ) : ℤ :=
  let f := ratFloor q
  let r := q - f
  if r < mkRat 1 2 then f
  else if mkRat 1 2 < r then f + 1
  else if f % 2 = 0 then f else f + 1

/-- Python `round(q, 2)` on an exact rational. -/
def round2 (q : ℚ) : ℚ := (pyRound0 (q * 100) : ℚ) / 100

/-- `x if v is not None else d` — the null-coalescing conditional used
for the output fields. -/
def optElse {α β : Type} (v : Option α) (f : α → β) (d : β) : β :=
  match v with
  | some a => f a
  | none => d

/-- `market_data.get(t, {}).get(field, dflt)` -/
def mdGet (cd : Option MData) (f : MData → Option ℚ) (dflt : Option ℚ) : Option ℚ :=
  match cd with
  | none => dflt
  | some m => f m

/-- The record `process_ticker` returns for a selected stock, keeping
the dict keys of src/main.py as ASCII field names (`pe_round` is
`市盈率(PE)`, `roe_pct` is `ROE(%)`, `de_pct` is `债务权益比(%)`,
`fcf_yi` is `自由现金流(亿)`, `mktcap_yi` is `市值(亿)`,
`cyclical_mark` is `周期股`, `_raw` fields are the hidden detail-page
keys). -/
structure ScreenedStock where
  code : String
  shortName : Option String
  valuation_status : String
  current_price : Option ℚ
  year_high : Option ℚ
  year_low : Option ℚ
  pe_round : ℚ
  PEG : ℚ
  roe_pct : ℚ
  de_pct : ℚ
  gross_pct : ℚ
  net_pct : ℚ
  fcf_yi : ℚ
  mktcap_yi : ℚ
  industry : Option String
  sector_field : Option String
  cyclical_mark : String
  pegRatio_raw : ℚ
  freeCashFlow_raw : ℚ
  revenueGrowth_raw : Option ℚ
  returnOnEquity_raw : Option ℚ
  trailingPE_raw : Option ℚ
  debtToEquity_raw : Option ℚ
  grossMargins_raw : Option ℚ
  profitMargins_raw : Option ℚ
  marketCap_raw : Option ℚ
  enterpriseValue_raw : Option ℚ
  forwardPE_raw : Option ℚ
  priceToBook_raw : Option ℚ
  dividendYield_raw : Option ℚ
deriving DecidableEq

/-- The body of `process_ticker` up to (but excluding) the broad
`except Exception: return None`; `.error ()` is an uncaught exception
inside the body (the `TypeError` of the valuation comparison, or the
`TypeError` of `None / 100000000` for a null market cap). -/
def process_ticker_body (ticker : String) (md : List (String × MData)) (info : Info) :
    Except Unit (Option ScreenedStock) :=
  if info.isEmpty then .ok none else
  match pyGetD info.returnOnEquity 0 with
  | none => .ok none
  | some roe =>
  if roe < mkRat 15 100 then .ok none else
  match pyGetD info.debtToEquity 1000 with
  | none => .ok none
  | some de =>
  if 150 < de then .ok none else
  match pyGetD info.grossMargins 0 with
  | none => .ok none
  | some gm =>
  if gm < mkRat 2 10 then .ok none else
  match pyGetD info.trailingPE 0 with
  | none => .ok none
  | some pe =>
  if pe ≤ 0 ∨ 35 < pe then .ok none else
  if fcfOf info < 0 then .ok none else
  match pyGetD info.profitMargins 0 with
  | none => .ok none
  | some net =>
  if net < mkRat 1 10 then .ok none else
  match valuationStatus (pyGetD info.revenueGrowth 0) (pegOf info) with
  | .error e => .error e
  | .ok valuation =>
  match pyGetD info.marketCap 0 with
  | none => .error ()
  | some mc =>
  .ok (some {
    code := ticker
    shortName := pyGetD info.shortName ticker
    valuation_status := valuation
    current_price := mdGet (List.lookup (normalizeT ticker) md) MData.current_price
      (pyGet info.currentPrice)
    year_high := mdGet (List.lookup (normalizeT ticker) md) MData.year_high
      (pyGet info.fiftyTwoWeekHigh)
    year_low := mdGet (List.lookup (normalizeT ticker) md) MData.year_low
      (pyGet info.fiftyTwoWeekLow)
    pe_round := round2 pe
    PEG := optElse (pegOf info) round2 0
    roe_pct := round2 (roe * 100)
    de_pct := de
    gross_pct := round2 (gm * 100)
    net_pct := round2 (net * 100)
    fcf_yi := round2 (fcfOf info / 100000000)
    mktcap_yi := round2 (mc / 100000000)
    industry := pyGetD info.industry "未知"
    sector_field := pyGetD info.sector "Unknown"
    cyclical_mark :=
      if (match pyGetD info.sector "Unknown" with
          | some s => CYCLICAL_SECTORS.contains s
          | none => false)
      then "⚠️是" else "否"
    pegRatio_raw := optElse (pegOf info) (fun pg => pg) 0
    freeCashFlow_raw := fcfOf info
    revenueGrowth_raw := pyGetD info.revenueGrowth 0
    returnOnEquity_raw := pyGetD info.returnOnEquity 0
    trailingPE_raw := pyGetD info.trailingPE 0
    debtToEquity_raw := pyGetD info.debtToEquity 0
    grossMargins_raw := pyGetD info.grossMargins 0
    profitMargins_raw := pyGetD info.profitMargins 0
    marketCap_raw := pyGetD info.marketCap 0
    enterpriseValue_raw := pyGetD info.enterpriseValue 0
    forwardPE_raw := pyGetD info.forwardPE 0
    priceToBook_raw := pyGetD info.priceToBook 0
    dividendYield_raw := pyGetD info.dividendYield 0
  })

/-- `process_ticker`: the body wrapped in the broad
`except Exception: return None`. -/
def process_ticker (ticker : String) (md : List (String × MData)) (info : Info) :
    Option ScreenedStock :=
  match process_ticker_body ticker md info with
  | .ok r => r
  | .error _ => none

/-! ## Concrete instances used by witnesses and counterexamples -/

/-- Provider world where the primary succeeds but returns no fields at
all, while both backup providers are configured and would answer. -/
def pCx3 : Providers :=
  ⟨.ok ⟨none, none, none⟩, some "k", .ok ⟨some 30⟩, .ok ⟨some 20, some 40⟩,
   some "k2", .ok ⟨some 31, some 21, some 41⟩⟩

/-- Provider world where the primary returns a price and a 52-week high
but no 52-week low, while Finnhub is configured and would supply the
52-week low `40`. -/
def pCx4 : Providers :=
  ⟨.ok ⟨some 50, none, some 60⟩, some "k", .ok ⟨some 51⟩, .ok ⟨some 40, some 61⟩,
   some "k2", .ok ⟨some 52, some 42, some 62⟩⟩

/-- A cached market-data file holding one fresh entry for a ticker that
is not in the requested batch. -/
def storeCx1 : Option (GenCacheEntry MarketMap) :=
  some ⟨[("X", some ⟨some 50, some 40, some 60⟩)], 0, 10⟩

/-- A fetch answering the all-`None` record for every ticker. -/
def fetchNone : String → Except Unit MData := fun _ => .ok noneRecord

/-- A cached market-data file holding one fresh entry whose price is the
sentinel `100.0`. -/
def storeSentinel : Option (GenCacheEntry MarketMap) :=
  some ⟨[("BRK-B", some ⟨some 100, some 40, some 60⟩)], 0, 86400⟩

/-- A fetch answering a genuine quote for every ticker. -/
def fetchFresh : String → Except Unit MData := fun _ => .ok ⟨some 55, some 44, some 66⟩

/-- The fundamentals scenario of the spec: ROE 0.20, D/E 50,
gross margin 0.30, PE 20, FCF 1e9, net margin 0.15, revenue growth 0.05,
PEG 0.8, sector Technology. -/
def infoC6 : Info where
  isEmpty := false
  returnOnEquity := .val (mkRat 2 10)
  debtToEquity := .val 50
  grossMargins := .val (mkRat 3 10)
  trailingPE := .val 20
  freeCashflow := .val 1000000000
  operatingCashflow := .absent
  capitalExpenditures := .absent
  profitMargins := .val (mkRat 15 100)
  revenueGrowth := .val (mkRat 1 20)
  sector := .val "Technology"
  pegRatio := .val (mkRat 8 10)
  earningsGrowth := .absent
  currentPrice := .absent
  fiftyTwoWeekHigh := .absent
  fiftyTwoWeekLow := .absent
  shortName := .absent
  industry := .absent
  marketCap := .absent
  enterpriseValue := .absent
  forwardPE := .absent
  priceToBook := .absent
  dividendYield := .absent

/-- The same passing scenario but with no provider PEG and no earnings
growth, so the PEG stays undefined. -/
def infoC9 : Info := { infoC6 with pegRatio := .absent }

/-- The same passing scenario but with the `revenueGrowth` key present
with value `None`. -/
def infoC10 : Info := { infoC6 with revenueGrowth := .null }

/-! ## Association-list helper lemmas -/

/-- Looking a key up after the worker fold: a missing ticker gets its
fetched value; every other key falls through to the base map. -/
theorem lookup_fold_fetch (fetch : String → Except Unit MData) (l : List String)
    (base : List (String × MData)) (k : String) :
    List.lookup k (l.foldl (fun acc t => (t, fetchVal fetch t) :: acc) base) =
      if k ∈ l then some (fetchVal fetch k) else List.lookup k base := by
  induction l generalizing base with
  | nil => simp
  | cons a rest ih =>
    simp only [List.foldl_cons, ih, List.mem_cons]
    by_cases hk : k ∈ rest
    · simp [hk]
    · by_cases hka : k = a
      · subst hka
        simp [hk, List.lookup_cons_self]
      · have hbeq : (k == a) = false := beq_eq_false_iff_ne.mpr hka
        simp [hk, hka, List.lookup_cons, hbeq]

/-- A lookup succeeds exactly on the keys of the association list. -/
theorem lookup_isSome_iff {β : Type} (l : List (String × β)) (k : String) :
    (List.lookup k l).isSome = true ↔ k ∈ l.map Prod.fst := by
  induction l with
  | nil => simp
  | cons p rest ih =>
    obtain ⟨a, b⟩ := p
    by_cases hka : k = a
    · subst hka; simp [List.lookup_cons_self]
    · have hbeq : (k == a) = false := beq_eq_false_iff_ne.mpr hka
      simp [List.lookup_cons, hbeq, hka, ih]

/-- `keepValid` preserves the key of an entry. -/
theorem keepValid_fst (k : String) (od : Option MData) (p : String × MData)
    (h : keepValid (k, od) = some p) : p.1 = k := by
  unfold keepValid at h
  cases od with
  | none => simp at h
  | some d =>
    simp only [] at h
    split at h
    · simp at h
    · injection h with h
      rw [← h]

/-- A key absent from the cache is absent from the filtered cache. -/
theorem lookup_filterMap_keepValid_of_not_mem (l : MarketMap) (t : String)
    (h : t ∉ l.map Prod.fst) : List.lookup t (l.filterMap keepValid) = none := by
  induction l with
  | nil => simp
  | cons p rest ih =>
    obtain ⟨a, od⟩ := p
    simp only [List.map_cons, List.mem_cons] at h
    push_neg at h
    obtain ⟨hta, htr⟩ := h
    rw [List.filterMap_cons]
    cases hkv : keepValid (a, od) with
    | none => exact ih htr
    | some q =>
      obtain ⟨q1, q2⟩ := q
      have hq : q1 = a := keepValid_fst a od _ hkv
      subst hq
      have hbeq : (t == q1) = false := beq_eq_false_iff_ne.mpr hta
      simp [List.lookup_cons, hbeq, ih htr]

/-- If the (unique) cache entry of a key is rejected by `keepValid`, the
key is absent from the filtered cache. -/
theorem lookup_filterMap_keepValid_none (l : MarketMap) (t : String) (od : Option MData)
    (hnd : (l.map Prod.fst).Nodup)
    (hl : List.lookup t l = some od)
    (hkeep : keepValid (t, od) = none) :
    List.lookup t (l.filterMap keepValid) = none := by
  induction l with
  | nil => simp at hl
  | cons p rest ih =>
    obtain ⟨a, od'⟩ := p
    simp only [List.map_cons, List.nodup_cons] at hnd
    obtain ⟨hna, hnr⟩ := hnd
    by_cases hta : t = a
    · subst hta
      rw [List.lookup_cons_self] at hl
      injection hl with hl
      subst hl
      rw [List.filterMap_cons, hkeep]
      exact lookup_filterMap_keepValid_of_not_mem rest t hna
    · have hbeq : (t == a) = false := beq_eq_false_iff_ne.mpr hta
      simp only [List.lookup_cons, hbeq] at hl
      rw [List.filterMap_cons]
      cases hkv : keepValid (a, od') with
      | none => exact ih hnr hl
      | some q =>
        obtain ⟨q1, q2⟩ := q
        have hq : q1 = a := keepValid_fst a od' _ hkv
        subst hq
        simp only [List.lookup_cons, hbeq]
        exact ih hnr hl

/-! ## Claim theorems -/

/-- C8: identifier normalization (rewriting every literal `.` to `-`) is
idempotent, and `normalize("BRK.B")` and `normalize("BRK-B")` both equal
`"BRK-B"`. -/
theorem normalizeT_idempotent_brk :
    (∀ x : String, normalizeT (normalizeT x) = normalizeT x) ∧
    normalizeT "BRK.B" = "BRK-B" ∧ normalizeT "BRK-B" = "BRK-B" := by
  refine ⟨?_, rfl, rfl⟩
  intro x
  unfold normalizeT
  have hdata : ∀ l : List Char, (List.asString l).data = l := fun _ => rfl
  rw [hdata, List.map_map]
  congr 1
  apply List.map_congr_left
  intro c _
  by_cases hc : c = '.'
  · subst hc; simp
  · simp [hc]

/-- C5: the generic cache load returns the stored payload exactly when
`now - storedAt < ttl`; at or beyond expiry (and for a missing or
corrupt file) it returns the miss value `none`. -/
theorem load_generic_cache_ttl_iff {α : Type} (now : ℚ) (e : GenCacheEntry α) :
    (load_generic_cache now (some e) = some e.data ↔ now - e.timestamp < e.ttl) ∧
    (load_generic_cache now (some e) = none ↔ ¬ now - e.timestamp < e.ttl) ∧
    load_generic_cache now (none : Option (GenCacheEntry α)) = none := by
  unfold load_generic_cache
  by_cases h : now - e.timestamp < e.ttl <;> simp [h]

/-- C7: the composed result-cache load performed by `main` discards the
whole cache (returns `none`) whenever any required column — from either
the `load_cache` list or the `main` list, e.g. `PEG` — is missing from
the stored table; and whatever it does return is the stored table
unmodified, never a repaired one. -/
theorem result_cache_schema_guard :
    (∀ (df : CachedTable) (meta : Option String) (c : String),
      (c ∈ load_cache_required_columns ∨ c ∈ main_required_cols) →
      df.columns.contains c = false →
      main_load_cached (some (df, meta)) = none) ∧
    (∀ (st : Option (CachedTable × Option String)) (r : CachedTable × String),
      main_load_cached st = some r → ∃ s, st = some s ∧ r.1 = s.1) := by
  constructor
  · intro df meta c hc hmiss
    have hfail : ∀ l : List String, c ∈ l → (l.all fun s => df.columns.contains s) = false := by
      intro l hcl
      cases hb : (l.all fun s => df.columns.contains s) with
      | false => rfl
      | true =>
        have hct := List.all_eq_true.mp hb c hcl
        rw [hmiss] at hct
        exact absurd hct (by simp)
    rcases hc with hc | hc
    · simp only [main_load_cached, load_cache, hfail load_cache_required_columns hc]
      simp
    · cases hb : (load_cache_required_columns.all fun s => df.columns.contains s) with
      | false =>
        simp only [main_load_cached, load_cache, hb]
        simp
      | true =>
        simp only [main_load_cached, load_cache, hb, hfail main_required_cols hc]
        simp
        exact ⟨c, hc, by simpa using hmiss⟩
  · intro st r h
    obtain ⟨r1, r2⟩ := r
    cases st with
    | none => simp [main_load_cached, load_cache] at h
    | some s =>
      obtain ⟨df, meta⟩ := s
      refine ⟨(df, meta), rfl, ?_⟩
      cases hb1 : (load_cache_required_columns.all fun s => df.columns.contains s) with
      | false =>
        simp only [main_load_cached, load_cache, hb1] at h
        simp at h
      | true =>
        cases hb2 : (main_required_cols.all fun s => df.columns.contains s) with
        | false =>
          simp only [main_load_cached, load_cache, hb1, hb2] at h
          simp at h
          have hnot : ¬ ∀ x ∈ main_required_cols, x ∈ df.columns := by
            intro hall
            have : (main_required_cols.all fun s => df.columns.contains s) = true := by
              rw [List.all_eq_true]
              intro x hx
              simpa using hall x hx
            rw [hb2] at this
            exact absurd this (by simp)
          exact absurd h.1 hnot
        | true =>
          simp only [main_load_cached, load_cache, hb1, hb2] at h
          simp at h
          exact h.2.1.symm

/-- C7 witness: a stored table with exactly the `load_cache` columns but
no `PEG` column is discarded wholesale. -/
theorem result_cache_schema_guard_witness :
    main_load_cached (some (⟨load_cache_required_columns⟩, some "2024-01-01")) = none :=
  result_cache_schema_guard.1 ⟨load_cache_required_columns⟩ (some "2024-01-01") "PEG"
    (Or.inr (by decide)) (by decide)

/-- C3 (amended): the backup chain of `get_ticker_data` is entered iff
the primary yfinance fetch raises — a successful primary response
lacking required fields does not advance the chain — and Alpha Vantage
is entered iff additionally the Finnhub step fails (missing key, request
error on either call, or a non-truthy current price). -/
theorem chain_advances_only_on_primary_exception (t : String) (p : Providers) :
    (get_ticker_data t p).2.1 = exceptFailed p.primary ∧
    (get_ticker_data t p).2.2 =
      (exceptFailed p.primary && exceptFailed (finnhubStep p)) := by
  cases hp : p.primary with
  | ok info => simp [get_ticker_data, exceptFailed, hp]
  | error e =>
    cases hf : finnhubStep p with
    | ok d => simp [get_ticker_data, exceptFailed, hp, hf]
    | error e2 => simp [get_ticker_data, exceptFailed, hp, hf]

/-- C3 counterexample: the primary succeeds while lacking every required
field (a Failure in the claim's sense), yet the Finnhub branch is not
entered — the chain does not advance and the all-`None` record is
returned even though a configured Finnhub would have answered. -/
theorem chain_missing_fields_no_advance_cx :
    pCx3.primary = Except.ok ⟨none, none, none⟩ ∧
    pCx3.finnhub_key = some "k" ∧
    (get_ticker_data "ZZZV" pCx3).2.1 = false ∧
    (get_ticker_data "ZZZV" pCx3).2.2 = false ∧
    (get_ticker_data "ZZZV" pCx3).1 = noneRecord :=
  ⟨rfl, rfl, rfl, rfl, rfl⟩

/-- C4 (amended): when the primary fetch succeeds, each field of the
resolved record is the primary's own value whenever that value is
truthy — lower-priority sources never overwrite it — and each falsy
field is sought from the static fallback table only; the backup
providers are not consulted. -/
theorem primary_merge_fallback_only (t : String) (p : Providers) (i : PrimInfo)
    (h : p.primary = .ok i) :
    get_ticker_data t p =
      (⟨if falsyQ i.currentPrice then fbField (fbLookup t) MData.current_price
          else i.currentPrice,
        if falsyQ i.fiftyTwoWeekLow then fbField (fbLookup t) MData.year_low
          else i.fiftyTwoWeekLow,
        if falsyQ i.fiftyTwoWeekHigh then fbField (fbLookup t) MData.year_high
          else i.fiftyTwoWeekHigh⟩, false, false) := by
  simp only [get_ticker_data, h]
  by_cases h1 : falsyQ i.currentPrice <;>
    by_cases h2 : falsyQ i.fiftyTwoWeekLow <;>
      by_cases h3 : falsyQ i.fiftyTwoWeekHigh <;>
        simp [h1, h2, h3]

/-- C4 witness: for `AAPL`, a primary answer with price 50, no 52-week
low and high 60 resolves to price 50 (kept), 52-week low 135 (from the
fallback table) and high 60 (kept). -/
theorem primary_merge_fallback_only_witness :
    get_ticker_data "AAPL" pCx4 = (⟨some 50, some 135, some 60⟩, false, false) := by
  rw [primary_merge_fallback_only "AAPL" pCx4 ⟨some 50, none, some 60⟩ rfl]
  rfl

/-- C4 counterexample: the primary yields `currentPrice` but no
`yearLow`, Finnhub (configured, reachable) yields a 52-week low of 40,
yet for a ticker outside the fallback table the resolved record's
`year_low` stays `none` — the secondary's field is not merged in. -/
theorem merge_secondary_not_consulted_cx :
    pCx4.primary = Except.ok ⟨some 50, none, some 60⟩ ∧
    pCx4.finnhub_metric = Except.ok ⟨some 40, some 61⟩ ∧
    (get_ticker_data "ZZZV" pCx4).1.current_price = some 50 ∧
    (get_ticker_data "ZZZV" pCx4).1.year_low = none :=
  ⟨rfl, rfl, rfl, rfl⟩

/-- C1 (amended): the batch map always contains every (normalized)
requested identifier as a key, regardless of provider failures, but its
key set only contains — rather than equals — the normalized request
set: any still-valid cached identifier also stays in the map. -/
theorem get_market_data_key_superset (now : ℚ) (store : Option (GenCacheEntry MarketMap))
    (fetch : String → Except Unit MData) (tickers : List String) :
    (∀ t ∈ tickers,
      (List.lookup (normalizeT t) (get_market_data now store fetch tickers)).isSome = true) ∧
    (∀ k, (List.lookup k (get_market_data now store fetch tickers)).isSome = true →
      k ∈ tickers.map normalizeT ∨
        k ∈ (cachedValidEntries (load_generic_cache now store)).map Prod.fst) := by
  cases he : tickers.isEmpty with
  | true =>
    have hnil : tickers = [] := by
      cases tickers with
      | nil => rfl
      | cons a l => simp at he
    subst hnil
    constructor
    · intro t ht; simp at ht
    · intro k hk
      simp [get_market_data] at hk
  | false =>
    have hgm : get_market_data now store fetch tickers =
        (missingTickers (tickers.map normalizeT)
            (cachedValidEntries (load_generic_cache now store))).foldl
          (fun acc t => (t, fetchVal fetch t) :: acc)
          (cachedValidEntries (load_generic_cache now store)) := by
      unfold get_market_data
      rw [he]
      rfl
    constructor
    · intro t ht
      rw [hgm, lookup_fold_fetch]
      by_cases hm : normalizeT t ∈ missingTickers (tickers.map normalizeT)
          (cachedValidEntries (load_generic_cache now store))
      · simp [hm]
      · rw [if_neg hm]
        have htl : normalizeT t ∈ tickers.map normalizeT := List.mem_map_of_mem _ ht
        have hnf : needsFetch (cachedValidEntries (load_generic_cache now store))
            (normalizeT t) = false := by
          cases hb : needsFetch (cachedValidEntries (load_generic_cache now store))
              (normalizeT t) with
          | false => rfl
          | true => exact absurd (List.mem_filter.mpr ⟨htl, hb⟩) hm
        unfold needsFetch at hnf
        cases hlk : List.lookup (normalizeT t)
            (cachedValidEntries (load_generic_cache now store)) with
        | none => rw [hlk] at hnf; simp at hnf
        | some d => simp [hlk]
    · intro k hk
      rw [hgm, lookup_fold_fetch] at hk
      by_cases hm : k ∈ missingTickers (tickers.map normalizeT)
          (cachedValidEntries (load_generic_cache now store))
      · exact Or.inl (List.mem_of_mem_filter hm)
      · rw [if_neg hm] at hk
        exact Or.inr ((lookup_isSome_iff _ k).mp hk)

/-- C1 witness: a requested `BRK.B` is present (under its normalized
key) in the batch map even with no cache and every provider failing. -/
theorem get_market_data_key_superset_witness :
    (List.lookup "BRK-B"
      (get_market_data 0 none (fun _ => .error ()) ["BRK.B"])).isSome = true := by
  have h := (get_market_data_key_superset 0 none (fun _ => .error ()) ["BRK.B"]).1
    "BRK.B" (by decide)
  simpa using h

/-- C1 counterexample: with a still-valid cache entry for `X`, a batch
request for `["A"]` alone returns a map that also has the key `X` —
the key set does not equal the input identifier set. -/
theorem get_market_data_extra_key_cx :
    (List.lookup "X" (get_market_data 0 storeCx1 fetchNone ["A"])).isSome = true ∧
    ¬ ("X" ∈ (["A"] : List String)) := by
  have hload : load_generic_cache 0 storeCx1 =
      some [("X", some ⟨some 50, some 40, some 60⟩)] := by
    simp only [load_generic_cache, storeCx1]
    norm_num
  constructor
  · unfold get_market_data
    rw [hload]
    decide
  · decide

/-- C2: an unexpired cache entry whose `current_price` is the sentinel
`100.0` is excluded from the already-satisfied set (its ticker lands in
`missing_tickers`) and the batch result holds the freshly fetched
record for it instead of the cached one. -/
theorem sentinel_price_reresolved (now : ℚ) (store : Option (GenCacheEntry MarketMap))
    (fetch : String → Except Unit MData) (tickers : List String)
    (entries : MarketMap) (t : String) (d : MData)
    (hload : load_generic_cache now store = some entries)
    (hnd : (entries.map Prod.fst).Nodup)
    (hmem : t ∈ tickers.map normalizeT)
    (hent : List.lookup t entries = some (some d))
    (hsent : d.current_price = some 100) :
    t ∈ missingTickers (tickers.map normalizeT) (cachedValidEntries (some entries)) ∧
    List.lookup t (get_market_data now store fetch tickers) = some (fetchVal fetch t) := by
  have hkeep : keepValid (t, some d) = none := by
    unfold keepValid
    simp [hsent]
  have hlb : List.lookup t (cachedValidEntries (some entries)) = none := by
    unfold cachedValidEntries
    exact lookup_filterMap_keepValid_none entries t (some d) hnd hent hkeep
  have hneed : needsFetch (cachedValidEntries (some entries)) t = true := by
    unfold needsFetch
    rw [hlb]
  have hmiss : t ∈ missingTickers (tickers.map normalizeT) (cachedValidEntries (some entries)) :=
    List.mem_filter.mpr ⟨hmem, hneed⟩
  refine ⟨hmiss, ?_⟩
  have hne : tickers.isEmpty = false := by
    cases tickers with
    | nil => simp at hmem
    | cons a l => rfl
  unfold get_market_data
  rw [hne, hload]
  simp only [Bool.false_eq_true, if_false]
  rw [lookup_fold_fetch, if_pos hmiss]

/-- C2 witness: `BRK.B` has a fresh cache entry with the sentinel price
`100.0`; the batch run re-resolves it and returns the fetched quote 55,
not the cached 100. -/
theorem sentinel_price_reresolved_witness :
    List.lookup "BRK-B" (get_market_data 0 storeSentinel fetchFresh ["BRK.B"]) =
      some ⟨some 55, some 44, some 66⟩ := by
  have hload : load_generic_cache 0 storeSentinel =
      some [("BRK-B", some ⟨some 100, some 40, some 60⟩)] := by
    simp only [load_generic_cache, storeSentinel]
    norm_num
  have h := sentinel_price_reresolved 0 storeSentinel fetchFresh ["BRK.B"]
    [("BRK-B", some ⟨some 100, some 40, some 60⟩)] "BRK-B" ⟨some 100, some 40, some 60⟩
    hload (by decide) (by decide) (by decide) (by decide)
  rw [h.2]
  rfl

/-- Comparing a `None` revenue growth inside any branch of the
valuation classification raises `TypeError` whenever a PEG is defined. -/
theorem valuationStatus_null_some (p : ℚ) : valuationStatus none (some p) = .error () := by
  unfold valuationStatus pyAnd cmpGT0
  by_cases h1 : p < 1
  · simp [h1]
  · by_cases h2 : p ≤ 2
    · have h1b : 1 ≤ p := not_lt.mp h1
      simp [h1, h1b, h2]
    · have h3 : 2 < p := not_le.mp h2
      simp [h1, h2, h3]

/-- C6: the scenario record (ROE 0.20, D/E 50, gross margin 0.30, PE 20,
FCF 1e9, net margin 0.15, revenue growth 0.05, PEG 0.8, sector
Technology) passes all six gates and is produced as a selected record
with bucket `💰 低估` (Undervalued) and cyclicality mark `否`. -/
theorem scenario_all_gates_undervalued :
    (process_ticker "TECH" [] infoC6).map (fun r => (r.valuation_status, r.cyclical_mark)) =
      some ("💰 低估", "否") := by decide

/-- C9 (amended): when the PEG is undefined, the produced record stores
the numeric `0` in its `PEG` and `pegRatio` fields — absence is coerced
to the default zero, not kept as null. -/
theorem absent_numeric_coerced_zero (t : String) (md : List (String × MData)) (info : Info)
    (rec : ScreenedStock)
    (hp : pegOf info = none)
    (h : process_ticker t md info = some rec) :
    rec.PEG = 0 ∧ rec.pegRatio_raw = 0 := by
  unfold process_ticker at h
  cases hb : process_ticker_body t md info with
  | error e =>
    rw [hb] at h
    exact absurd h (by simp)
  | ok r =>
    rw [hb] at h
    have hr : r = some rec := h
    subst hr
    unfold process_ticker_body at hb
    rw [hp] at hb
    repeat' split at hb
    all_goals try (refine absurd hb ?_; simp; done)
    all_goals (injection hb with hb; injection hb with hb; subst hb)
    all_goals exact ⟨rfl, rfl⟩

/-- C9 witness: the passing scenario with no provider PEG yields a
selected record whose `PEG` and `pegRatio` fields are `0`. -/
theorem absent_numeric_coerced_zero_witness :
    ∃ rec, process_ticker "T" [] infoC9 = some rec ∧ rec.PEG = 0 ∧ rec.pegRatio_raw = 0 := by
  obtain ⟨rec, hx⟩ := Option.isSome_iff_exists.mp
    (by decide : (process_ticker "T" [] infoC9).isSome = true)
  exact ⟨rec, hx, absent_numeric_coerced_zero "T" [] infoC9 rec (by decide) hx⟩

/-- C9 counterexample: with `pegRatio` absent from the provider data,
the produced record represents it as the number `0`, not as an absent
value — refuting the claim that absence is never coerced to 0. -/
theorem absent_peg_zero_cx :
    infoC9.pegRatio = PyVal.absent ∧
    (process_ticker "T" [] infoC9).map (fun r => r.PEG) = some 0 := by decide

/-- C10: a record that passes all six gates, has a defined PEG and a
`revenueGrowth` key present with value `None` makes the valuation
comparison raise `TypeError`; the broad handler turns this into `None`,
so the stock is excluded despite satisfying every gate. -/
theorem null_revgrowth_excluded (t : String) (md : List (String × MData)) (info : Info)
    (roe de gm pe net pegv : ℚ)
    (hne : info.isEmpty = false)
    (h1 : pyGetD info.returnOnEquity 0 = some roe) (h1b : ¬ roe < mkRat 15 100)
    (h2 : pyGetD info.debtToEquity 1000 = some de) (h2b : ¬ 150 < de)
    (h3 : pyGetD info.grossMargins 0 = some gm) (h3b : ¬ gm < mkRat 2 10)
    (h4 : pyGetD info.trailingPE 0 = some pe) (h4b : ¬ (pe ≤ 0 ∨ 35 < pe))
    (h5 : ¬ fcfOf info < 0)
    (h6 : pyGetD info.profitMargins 0 = some net) (h6b : ¬ net < mkRat 1 10)
    (hrev : info.revenueGrowth = PyVal.null)
    (hpeg : pegOf info = some pegv) :
    process_ticker_body t md info = .error () ∧ process_ticker t md info = none := by
  have hvs : valuationStatus (pyGetD info.revenueGrowth 0) (pegOf info) = .error () := by
    rw [hrev, hpeg]
    exact valuationStatus_null_some pegv
  have hb : process_ticker_body t md info = .error () := by
    simp only [process_ticker_body, hne, Bool.false_eq_true, if_false,
      h1, h1b, h2, h2b, h3, h3b, h4, h4b, h5, h6, h6b, hvs, if_false]
  refine ⟨hb, ?_⟩
  unfold process_ticker
  rw [hb]

/-- C10 witness: the concrete passing scenario with `revenueGrowth`
present as `None` and PEG 0.8 is dropped from the results. -/
theorem null_revgrowth_excluded_witness :
    process_ticker_body "NULLG" [] infoC10 = .error () ∧
    process_ticker "NULLG" [] infoC10 = none :=
  null_revgrowth_excluded "NULLG" [] infoC10 (mkRat 2 10) 50 (mkRat 3 10) 20 (mkRat 15 100)
    (mkRat 8 10) rfl rfl (by decide) rfl (by decide) rfl (by decide) rfl (by decide)
    (by decide) rfl (by decide) rfl rfl

end FindStock
